import Mathlib

/-!
Verification of the auto-commit tool's core components against their
natural-language specification.  The Python sources are shallowly embedded:
`DiffCompressor` (src/code_reviewer.py) and the parts of `GitAnalyzer`
(src/git_analyzer.py) and `main` (src/auto_commit.py) that the claims touch
become executable Lean functions over `String`/`List`.  Python string
primitives (`split`, `join`, `strip`, `lower`, `startswith`, `in`,
slicing) are modelled by the `py*` helpers below, which operate on the
underlying character lists.
-/

/-! ## Python string primitives -/

/-- Is `pat` a (character-wise) prefix of the second list? -/
def isPrefixList : List Char → List Char → Bool
  | [], _ => true
  | _ :: _, [] => false
  | a :: as, b :: bs => a == b && isPrefixList as bs

/-- Does `pat` occur contiguously inside the list?  Model of Python `in`. -/
def containsList (pat : List Char) : List Char → Bool
  | [] => isPrefixList pat []
  | c :: tl => isPrefixList pat (c :: tl) || containsList pat tl

/-- Model of Python `pat in s` (substring containment). -/
def pyContains (s pat : String) : Bool := containsList pat.data s.data

/-- Model of Python `s.startswith(pre)`. -/
def pyStartsWith (s pre : String) : Bool := isPrefixList pre.data s.data

/-- Model of Python `s.lower()` (ASCII case folding suffices here). -/
def pyLower (s : String) : String := String.mk (s.data.map Char.toLower)

/-- Python whitespace characters recognised by `str.strip()`. -/
def pyIsSpace (c : Char) : Bool :=
  c == ' ' || c == '\t' || c == '\n' || c == '\r' || c == '\x0b' || c == '\x0c'

/-- Model of Python `s.strip()`. -/
def pyStrip (s : String) : String :=
  String.mk (((s.data.dropWhile pyIsSpace).reverse.dropWhile pyIsSpace).reverse)

/-- Model of Python slicing `s[:n]`. -/
def strTake (s : String) (n : Nat) : String := String.mk (s.data.take n)

/-- Model of Python slicing `s[n:]`. -/
def strDrop (s : String) (n : Nat) : String := String.mk (s.data.drop n)

/-- Model of Python `s.lstrip(c)` for a one-character argument. -/
def lstripChar (c : Char) (s : String) : String :=
  String.mk (s.data.dropWhile (fun d => d == c))

/-- Split a character list at every occurrence of `sep`; model of Python
`str.split(sep)` for a one-character separator (always at least one piece,
empty pieces kept). -/
def splitOnCharList (sep : Char) : List Char → List (List Char)
  | [] => [[]]
  | c :: cs =>
    let rest := splitOnCharList sep cs
    if c == sep then [] :: rest
    else
      match rest with
      | [] => [[c]]
      | r :: rs => (c :: r) :: rs

/-- Model of Python `s.split('\n')`. -/
def pySplitLines (s : String) : List String :=
  (splitOnCharList '\n' s.data).map String.mk

/-- Model of Python `s.split('.')`. -/
def pySplitDot (s : String) : List String :=
  (splitOnCharList '.' s.data).map String.mk

/-- Character-list form of `'\n'.join`. -/
def charJoinNL : List (List Char) → List Char
  | [] => []
  | x :: xs => x ++ (xs.map (fun p => '\n' :: p)).flatten

/-- Model of Python `'\n'.join(pieces)`. -/
def pyJoinNL (l : List String) : String := String.mk (charJoinNL (l.map String.data))

/-! ## Data model (src/git_analyzer.py 12-29) -/

/-- Model of the `FileChange` dataclass: one changed path with its change
kind, line counts, and raw diff text. -/
structure FileChange where
  path : String
  change_type : String
  insertions : Nat
  deletions : Nat
  diff : String
deriving DecidableEq

/-- Model of the `GitChanges` dataclass (the spec's ChangeSet): staged and
unstaged partitions plus derived totals. -/
structure GitChanges where
  staged_files : List FileChange
  unstaged_files : List FileChange
  total_insertions : Nat
  total_deletions : Nat
  total_files : Nat
deriving DecidableEq

/-! ## ReviewLevel (src/code_reviewer.py 12-16) -/

def ReviewLevel.QUICK : String := "quick"

def ReviewLevel.NORMAL : String := "normal"

def ReviewLevel.DETAILED : String := "detailed"

/-! ## DiffCompressor (src/code_reviewer.py 391-609) -/

/-- Noise tokens of `DiffCompressor._is_important_line` (the file rejects a
line whose trimmed lower-cased form starts with or equals one of these). -/
def skipPatterns : List String :=
  ["import ", "from ", "#", "//", "/*", "*/",
   "\x7b", "\x7d", "(", ")", "[", "]", ";",
   "\x22\x22\x22", "\x27\x27\x27", "pass", "console.log"]

/-- Signal tokens of `DiffCompressor._is_important_line` (a line is kept only
if it contains one of these). -/
def importantPatterns : List String :=
  ["def ", "class ", "function ", "return ",
   "if ", "else", "for ", "while ", "try", "catch",
   "=", "await ", "async ", "@"]

/-- Model of `DiffCompressor._is_important_line` (src/code_reviewer.py
584-609).  Note: the length check is on the argument as given, before any
trimming; the noise check is on the trimmed lower-cased form; the signal
check is on the original line. -/
def DiffCompressor.isImportantLine (line : String) : Bool :=
  if line.data.length < 3 then false
  else
    let lineLower := pyStrip (pyLower line)
    if skipPatterns.any (fun p => pyStartsWith lineLower p || lineLower == p) then false
    else importantPatterns.any (fun p => pyContains line p)

/-- Definition-like keywords of `DiffCompressor._extract_signatures`. -/
def sigKeywords : List String :=
  ["def ", "class ", "function ", "const ", "let ", "var ",
   "public ", "private ", "protected ", "async ", "@"]

/-- Model of `DiffCompressor._extract_signatures` (src/code_reviewer.py
553-566). -/
def DiffCompressor.extractSignatures (lines : List String) : List String :=
  lines.filterMap (fun line =>
    let clean := pyStrip (lstripChar '+' line)
    if sigKeywords.any (fun kw => pyContains clean kw) then
      if pyContains clean "(" || pyContains clean "class " then
        some (strTake clean 120)
      else none
    else none)

/-- Model of `DiffCompressor._extract_key_changes` (src/code_reviewer.py
568-582): the first `limit` added lines that pass the importance filter. -/
def DiffCompressor.extractKeyChanges (diff : String) (limit : Nat) : List String :=
  ((pySplitLines diff).filterMap (fun line =>
    if pyStartsWith line "+" && !(pyStartsWith line "+++") then
      let clean := pyStrip (strDrop line 1)
      if DiffCompressor.isImportantLine clean then some ("+ " ++ strTake clean 100)
      else none
    else none)).take limit

/-- One step of the additions/deletions collection loop of
`DiffCompressor._compress_diff_content` (src/code_reviewer.py 529-538);
the accumulator is the pair (additions, deletions). -/
def addDelStep (acc : List String × List String) (line : String) : List String × List String :=
  if pyStartsWith line "+" && !(pyStartsWith line "+++") then
    let clean := pyStrip (strDrop line 1)
    if DiffCompressor.isImportantLine clean then (acc.1 ++ ["+ " ++ strTake clean 100], acc.2)
    else acc
  else if pyStartsWith line "-" && !(pyStartsWith line "---") then
    let clean := pyStrip (strDrop line 1)
    if DiffCompressor.isImportantLine clean then (acc.1, acc.2 ++ ["- " ++ strTake clean 100])
    else acc
  else acc

/-- The additions/deletions collection loop of
`DiffCompressor._compress_diff_content`. -/
def collectAddDel (lines : List String) : List String × List String :=
  lines.foldl addDelStep ([], [])

/-- Model of `DiffCompressor._compress_diff_content` (src/code_reviewer.py
507-551). -/
def DiffCompressor.compressDiffContent (diff : String) (level : String) (changeType : String) : String :=
  let lines := pySplitLines diff
  let result : List String :=
    if changeType = "A" then
      let signatures := DiffCompressor.extractSignatures lines
      if signatures = [] then DiffCompressor.extractKeyChanges diff 10
      else "새로운 정의:" :: signatures.take (if level = ReviewLevel.DETAILED then 15 else 8)
    else
      let ad := collectAddDel lines
      let maxLines := if level = ReviewLevel.DETAILED then 20 else 10
      (if ad.2 = [] then [] else "제거됨:" :: ad.2.take (maxLines / 2))
        ++ (if ad.1 = [] then [] else "추가됨:" :: ad.1.take (maxLines / 2))
  pyJoinNL (result.take 30)

/-- Low-priority path keywords of `DiffCompressor._get_file_priority`. -/
def lowPriorityPatterns : List String :=
  ["test_", "_test.", ".test.",
   "spec.", ".spec.",
   "config.", "setup.", "requirements.",
   ".md", ".txt", ".yml", ".yaml", ".json",
   "migration", "__init__"]

/-- High-priority path keywords of `DiffCompressor._get_file_priority`. -/
def highPriorityPatterns : List String :=
  ["service", "controller", "api", "model",
   "handler", "middleware", "auth", "security"]

/-- Model of `DiffCompressor._get_file_priority` (src/code_reviewer.py
478-505): the low-priority patterns are tested first and return
immediately. -/
def DiffCompressor.getFilePriority (path : String) : String :=
  let pathLower := pyLower path
  if lowPriorityPatterns.any (fun p => pyContains pathLower p) then "low"
  else if highPriorityPatterns.any (fun p => pyContains pathLower p) then "high"
  else "normal"

/-- The part of the `_compress_smart` loop body contributed by one file
(src/code_reviewer.py 457-474); the skipped low-priority/quick case
contributes the empty string. -/
def DiffCompressor.smartSegment (level : String) (c : FileChange) : String :=
  if DiffCompressor.getFilePriority c.path = "low" ∧ level = ReviewLevel.QUICK then ""
  else
    "\n━━━ " ++ (c.path ++ " (" ++ c.change_type ++ ") +"
        ++ toString c.insertions ++ "/-" ++ toString c.deletions ++ "\n")
      ++ (if c.diff = "" then ""
          else DiffCompressor.compressDiffContent c.diff level c.change_type ++ "\n")

/-- Model of `DiffCompressor._compress_smart` (src/code_reviewer.py
452-476). -/
def DiffCompressor.compressSmart (changes : List FileChange) (level : String) : String :=
  changes.foldl (fun acc c => acc ++ DiffCompressor.smartSegment level c) ""

/-- The part of the `_compress_minimal` loop body contributed by one file
(src/code_reviewer.py 440-448). -/
def DiffCompressor.minimalSegment (c : FileChange) : String :=
  "\n• " ++ (c.path ++ " (" ++ c.change_type ++ ") +"
      ++ toString c.insertions ++ "/-" ++ toString c.deletions ++ "\n")
    ++ (let keyChanges := DiffCompressor.extractKeyChanges c.diff 5
        if keyChanges = [] then ""
        else "  핵심 변경:\n" ++ String.join (keyChanges.map (fun l => "    " ++ l ++ "\n")))

/-- Model of `DiffCompressor._compress_minimal` (src/code_reviewer.py
435-450). -/
def DiffCompressor.compressMinimal (changes : List FileChange) : String :=
  changes.foldl (fun acc c => acc ++ DiffCompressor.minimalSegment c) "📝 변경 파일:\n"

/-- Model of `change.path.split('.')[-1] if '.' in change.path else 'other'`
(src/code_reviewer.py 418). -/
def extOf (path : String) : String :=
  if pyContains path "." then (pySplitDot path).getLastD "" else "other"

/-- The `by_type` grouping of `_compress_summary` (src/code_reviewer.py
416-421): files grouped by extension, groups in first-seen order, files in
encounter order. -/
def groupByExt (changes : List FileChange) : List (String × List FileChange) :=
  changes.foldl (fun acc c =>
    let ext := extOf c.path
    if acc.any (fun g => g.1 == ext) then
      acc.map (fun g => if g.1 == ext then (g.1, g.2 ++ [c]) else g)
    else acc ++ [(ext, [c])]) []

/-- Sort key of `_compress_summary`: insertions + deletions. -/
def changeSize (f : FileChange) : Nat := f.insertions + f.deletions

/-- Stable descending insertion (Python `sorted(..., reverse=True)` keeps
equal elements in encounter order). -/
def insertByDesc (key : FileChange → Nat) (c : FileChange) : List FileChange → List FileChange
  | [] => [c]
  | x :: xs => if key x ≤ key c then c :: x :: xs else x :: insertByDesc key c xs

/-- Model of Python's stable `sorted(files, key=..., reverse=True)`. -/
def sortByDesc (key : FileChange → Nat) (l : List FileChange) : List FileChange :=
  l.foldr (insertByDesc key) []

/-- One extension group's contribution to the summary (src/code_reviewer.py
423-431): an aggregate header line and the two largest files of the
group. -/
def DiffCompressor.summaryGroupBlock (g : String × List FileChange) : String :=
  let totalAdd := (g.2.map (fun f => f.insertions)).sum
  let totalDel := (g.2.map (fun f => f.deletions)).sum
  "📁 ." ++ (g.1 ++ " 파일: " ++ toString g.2.length ++ "개 (+"
      ++ toString totalAdd ++ "/-" ++ toString totalDel ++ ")\n")
    ++ String.join (((sortByDesc changeSize g.2).take 2).map (fun f =>
        "  • " ++ (f.path ++ " (+" ++ toString f.insertions ++ "/-"
          ++ toString f.deletions ++ ")\n")))

/-- Model of `DiffCompressor._compress_summary` (src/code_reviewer.py
411-433). -/
def DiffCompressor.compressSummary (changes : List FileChange) : String :=
  (groupByExt changes).foldl (fun acc g => acc ++ DiffCompressor.summaryGroupBlock g)
    "⚠️  대량 변경 감지 - 요약 리뷰\n\n"

/-- `total_lines` of `DiffCompressor.compress` (src/code_reviewer.py 398). -/
def totalChangedLines (changes : List FileChange) : Nat :=
  (changes.map (fun c => c.insertions + c.deletions)).sum

/-- Model of `DiffCompressor.compress` (src/code_reviewer.py 394-409). -/
def DiffCompressor.compress (changes : List FileChange) (level : String) : String :=
  let totalLines := totalChangedLines changes
  if 500 < totalLines ∧ level ≠ ReviewLevel.DETAILED then
    DiffCompressor.compressSummary changes
  else if 200 < totalLines ∧ level = ReviewLevel.QUICK then
    DiffCompressor.compressMinimal changes
  else
    DiffCompressor.compressSmart changes level

/-- The token estimate of a compressed report: `len(report) // 4`
(src/code_reviewer.py 673). -/
def tokenEstimate (report : String) : Nat := report.data.length / 4

/-- The token estimate reported by `CodeReviewer.review`
(src/code_reviewer.py 663-673): 0 for an empty change list, otherwise the
estimate of the compressed diff. -/
def reviewTokenEstimate (changes : List FileChange) (level : String) : Nat :=
  if changes = [] then 0
  else tokenEstimate (DiffCompressor.compress changes level)

/-! ## GitAnalyzer (src/git_analyzer.py) -/

/-- The added-file fallback of `GitAnalyzer.get_staged_changes`
(src/git_analyzer.py 74-89): the file's full content is read from disk and
every line becomes one `+`-prefixed diff line; insertions are the number of
pieces of `content.split('\n')`, deletions zero. -/
def GitAnalyzer.stagedAddedChange (path content : String) : FileChange :=
  { path := path
    change_type := "A"
    insertions := (pySplitLines content).length
    deletions := 0
    diff := pyJoinNL ((pySplitLines content).map (fun l => "+" ++ l)) }

/-- The added-file fallback of `GitAnalyzer.get_unstaged_changes`
(src/git_analyzer.py 203-224): same synthesis as the staged path, but the
file is skipped (no `FileChange`) when its content is empty. -/
def GitAnalyzer.unstagedAddedChange (path content : String) : Option FileChange :=
  if content = "" then none
  else some
    { path := path
      change_type := "A"
      insertions := (pySplitLines content).length
      deletions := 0
      diff := pyJoinNL ((pySplitLines content).map (fun l => "+" ++ l)) }

/-- The untracked-file conversion of `GitAnalyzer.get_all_changes`
(src/git_analyzer.py 354-368): the raw file content is stored as the diff
body, without any `+` prefixes. -/
def GitAnalyzer.untrackedAddedChange (path content : String) : FileChange :=
  { path := path
    change_type := "A"
    insertions := (pySplitLines content).length
    deletions := 0
    diff := content }

/-- Model of `GitAnalyzer.get_all_changes` (src/git_analyzer.py 347-383).
The git plumbing is abstracted into the already-collected staged and
unstaged lists and the readable untracked files (path, content); the
statistics are computed over the concatenation of the two partitions. -/
def GitAnalyzer.getAllChanges (staged unstagedIn : List FileChange)
    (untracked : List (String × String)) (includeUntracked : Bool) : GitChanges :=
  let unstaged :=
    if includeUntracked then
      unstagedIn ++ untracked.map (fun pc => GitAnalyzer.untrackedAddedChange pc.1 pc.2)
    else unstagedIn
  let allFiles := staged ++ unstaged
  { staged_files := staged
    unstaged_files := unstaged
    total_insertions := (allFiles.map (fun f => f.insertions)).sum
    total_deletions := (allFiles.map (fun f => f.deletions)).sum
    total_files := allFiles.length }

/-- The repository contents seen by an analyzer whose repository opened
successfully: collected staged and unstaged changes plus readable untracked
files. -/
structure RepoState where
  staged : List FileChange
  unstaged : List FileChange
  untracked : List (String × String)
deriving DecidableEq

/-- Model of `GitAnalyzer.__init__` (src/git_analyzer.py 35-44): probing the
repository is abstracted as an `Option RepoState`; a failed probe
(`InvalidGitRepositoryError`) is re-raised as a `ValueError` carrying the
repository-error message, modelled as `Except.error`. -/
def GitAnalyzer.initAnalyzer (openResult : Option RepoState) (repoPath : String) :
    Except String RepoState :=
  match openResult with
  | some repo => Except.ok repo
  | none => Except.error ("\x27" ++ repoPath ++ "\x27는 유효한 Git 저장소가 아닙니다.")

/-- Constructing an analyzer and reading all changes: the spec's
`readChanges`.  A failed repository probe propagates the fatal error, so no
`GitChanges` is ever produced. -/
def GitAnalyzer.readChangesE (openResult : Option RepoState) (repoPath : String)
    (includeUntracked : Bool) : Except String GitChanges :=
  match GitAnalyzer.initAnalyzer openResult repoPath with
  | Except.error e => Except.error e
  | Except.ok repo =>
      Except.ok (GitAnalyzer.getAllChanges repo.staged repo.unstaged repo.untracked includeUntracked)

/-! ## The explicit-file-list filter of `main` (src/auto_commit.py 212-217) -/

/-- Model of the `args.files` filtering step in `main`
(src/auto_commit.py 212-217): both partitions are restricted to the given
file set and `total_files` is recomputed, but `total_insertions` and
`total_deletions` keep their original values. -/
def filterChangesByFiles (changes : GitChanges) (fileSet : List String) : GitChanges :=
  let staged := changes.staged_files.filter (fun f => fileSet.contains f.path)
  let unstaged := changes.unstaged_files.filter (fun f => fileSet.contains f.path)
  { changes with
    staged_files := staged
    unstaged_files := unstaged
    total_files := staged.length + unstaged.length }

/-! ## General lemmas about the string model -/

theorem strDataAppend (a b : String) : (a ++ b).data = a.data ++ b.data := by
  cases a; cases b; rfl

theorem strMkData (s : String) : String.mk s.data = s := by
  cases s; rfl

theorem strAppendAssoc (a b c : String) : a ++ b ++ c = a ++ (b ++ c) := by
  cases a; cases b; cases c
  show String.mk _ = String.mk _
  simp [String.append, List.append_assoc]

theorem strEmptyAppend (a : String) : "" ++ a = a := by
  cases a; rfl

theorem strAppendEmpty (a : String) : a ++ "" = a := by
  cases a
  show String.mk _ = String.mk _
  simp [String.append]

theorem foldlAppendShift {α : Type} (f : α → String) :
    ∀ (l : List α) (a : String),
      l.foldl (fun acc c => acc ++ f c) a = a ++ l.foldl (fun acc c => acc ++ f c) ""
  | [], a => by simp only [List.foldl]; exact (strAppendEmpty a).symm
  | c :: l, a => by
    simp only [List.foldl]
    rw [foldlAppendShift f l (a ++ f c), foldlAppendShift f l ("" ++ f c),
      strEmptyAppend, strAppendAssoc]

theorem isPrefixList_sub : ∀ pat l : List Char, isPrefixList pat l = true → ∀ c ∈ pat, c ∈ l
  | [], _, _ => by intro c hc; cases hc
  | _ :: _, [], h => by cases h
  | a :: as, b :: bs, h => by
    simp only [isPrefixList, Bool.and_eq_true, beq_iff_eq] at h
    intro c hc
    rcases hc with _ | hc
    · exact h.1 ▸ List.mem_cons_self _ _
    · exact List.mem_cons_of_mem _ (isPrefixList_sub as bs h.2 c (by assumption))

theorem containsList_sub : ∀ (pat l : List Char), containsList pat l = true → ∀ c ∈ pat, c ∈ l
  | pat, [], h => by
    intro c hc
    exact absurd (isPrefixList_sub pat [] h c hc) (List.not_mem_nil c)
  | pat, b :: bs, h => by
    simp only [containsList, Bool.or_eq_true] at h
    intro c hc
    rcases h with h | h
    · exact isPrefixList_sub pat (b :: bs) h c hc
    · exact List.mem_cons_of_mem _ (containsList_sub pat bs h c hc)

theorem splitNonNil (sep : Char) : ∀ l : List Char, splitOnCharList sep l ≠ []
  | [] => by simp [splitOnCharList]
  | c :: cs => by
    by_cases hc : c = sep
    · simp [splitOnCharList, hc]
    · cases h : splitOnCharList sep cs with
      | nil => simp [splitOnCharList, hc, h]
      | cons r rs => simp [splitOnCharList, hc, h]

theorem splitOnChar_cons_sep (sep : Char) (cs : List Char) :
    splitOnCharList sep (sep :: cs) = [] :: splitOnCharList sep cs := by
  simp [splitOnCharList]

theorem splitOnChar_cons_ne (sep c : Char) (cs r : List Char) (rs : List (List Char))
    (h : ¬ c = sep) (hrest : splitOnCharList sep cs = r :: rs) :
    splitOnCharList sep (c :: cs) = (c :: r) :: rs := by
  simp [splitOnCharList, h, hrest]

theorem splitOnChar_no_sep (sep : Char) :
    ∀ l : List Char, ∀ p ∈ splitOnCharList sep l, ∀ c ∈ p, c ≠ sep
  | [] => by
    intro p hp c hc
    simp only [splitOnCharList, List.mem_singleton] at hp
    subst hp
    cases hc
  | a :: cs => by
    intro p hp c hc
    by_cases ha : a = sep
    · rw [ha] at hp
      rw [splitOnChar_cons_sep] at hp
      rcases List.mem_cons.mp hp with hp | hp
      · subst hp; cases hc
      · exact splitOnChar_no_sep sep cs p hp c hc
    · cases h : splitOnCharList sep cs with
      | nil => exact absurd h (splitNonNil sep cs)
      | cons r rs =>
        rw [splitOnChar_cons_ne sep a cs r rs ha h] at hp
        rcases List.mem_cons.mp hp with hp | hp
        · subst hp
          rcases List.mem_cons.mp hc with hc | hc
          · exact hc ▸ ha
          · exact splitOnChar_no_sep sep cs r (h ▸ List.mem_cons_self r rs) c hc
        · exact splitOnChar_no_sep sep cs p (h ▸ List.mem_cons_of_mem r hp) c hc

theorem splitOnChar_append (sep : Char) :
    ∀ l1 l2 : List Char, (∀ c ∈ l1, c ≠ sep) →
      splitOnCharList sep (l1 ++ l2)
        = (l1 ++ (splitOnCharList sep l2).headD []) :: (splitOnCharList sep l2).tail
  | [], l2 => by
    intro _
    cases h : splitOnCharList sep l2 with
    | nil => exact absurd h (splitNonNil sep l2)
    | cons r rs => simp [h]
  | a :: l1', l2 => by
    intro hns
    have ha : ¬ a = sep := hns a (List.mem_cons_self _ _)
    have ih := splitOnChar_append sep l1' l2 (fun c hc => hns c (List.mem_cons_of_mem _ hc))
    show splitOnCharList sep (a :: (l1' ++ l2)) = _
    simp only [splitOnCharList, beq_iff_eq, ha, if_false, ih]
    rfl

theorem splitOnChar_of_no_sep (sep : Char) (l : List Char) (h : ∀ c ∈ l, c ≠ sep) :
    splitOnCharList sep l = [l] := by
  have := splitOnChar_append sep l [] h
  simpa [splitOnCharList] using this

theorem charJoinCons₂ (x y : List Char) (ys : List (List Char)) :
    charJoinNL (x :: y :: ys) = x ++ '\n' :: charJoinNL (y :: ys) := by
  simp [charJoinNL]

theorem splitOnChar_charJoin :
    ∀ pieces : List (List Char), pieces ≠ [] →
      (∀ p ∈ pieces, ∀ c ∈ p, c ≠ '\n') →
      splitOnCharList '\n' (charJoinNL pieces) = pieces
  | [], h0, _ => absurd rfl h0
  | [x], _, h1 => by
    have : charJoinNL [x] = x := by simp [charJoinNL]
    rw [this]
    exact splitOnChar_of_no_sep '\n' x (h1 x (List.mem_cons_self _ _))
  | x :: y :: ys, _, h1 => by
    rw [charJoinCons₂]
    have hx : ∀ c ∈ x, c ≠ '\n' := h1 x (List.mem_cons_self _ _)
    have ih := splitOnChar_charJoin (y :: ys) (by simp)
      (fun p hp => h1 p (List.mem_cons_of_mem _ hp))
    rw [splitOnChar_append '\n' x ('\n' :: charJoinNL (y :: ys)) hx]
    have hcons : splitOnCharList '\n' ('\n' :: charJoinNL (y :: ys))
        = [] :: splitOnCharList '\n' (charJoinNL (y :: ys)) := by
      simp [splitOnCharList]
    rw [hcons, ih]
    simp

theorem data_mk (l : List Char) : (String.mk l).data = l := rfl

theorem mem_pySplitLines_noNL (s l : String) (h : l ∈ pySplitLines s) :
    ∀ c ∈ l.data, c ≠ '\n' := by
  simp only [pySplitLines, List.mem_map] at h
  obtain ⟨p, hp, rfl⟩ := h
  simpa using splitOnChar_no_sep '\n' s.data p hp

theorem pySplit_pyJoin (L : List String) (h0 : L ≠ [])
    (h1 : ∀ e ∈ L, ∀ c ∈ e.data, c ≠ '\n') : pySplitLines (pyJoinNL L) = L := by
  show (splitOnCharList '\n' (String.mk (charJoinNL (L.map String.data))).data).map String.mk = L
  rw [data_mk]
  rw [splitOnChar_charJoin (L.map String.data)
    (by simpa using h0)
    (by
      intro p hp
      simp only [List.mem_map] at hp
      obtain ⟨e, he, rfl⟩ := hp
      exact h1 e he)]
  rw [List.map_map]
  have : ∀ e ∈ L, (String.mk ∘ String.data) e = id e := by
    intro e _
    simp [Function.comp, strMkData]
  rw [List.map_congr_left this, List.map_id]

/-! ## Structure lemmas for smart and summary mode -/

theorem compressSmart_cons (c : FileChange) (rest : List FileChange) (level : String) :
    DiffCompressor.compressSmart (c :: rest) level
      = DiffCompressor.smartSegment level c ++ DiffCompressor.compressSmart rest level := by
  show (c :: rest).foldl (fun acc x => acc ++ DiffCompressor.smartSegment level x) "" = _
  rw [List.foldl_cons,
    foldlAppendShift (DiffCompressor.smartSegment level) rest
      ("" ++ DiffCompressor.smartSegment level c),
    strEmptyAppend]
  rfl

theorem compressSmart_append (l1 l2 : List FileChange) (level : String) :
    DiffCompressor.compressSmart (l1 ++ l2) level
      = DiffCompressor.compressSmart l1 level ++ DiffCompressor.compressSmart l2 level := by
  induction l1 with
  | nil =>
    show DiffCompressor.compressSmart l2 level = "" ++ DiffCompressor.compressSmart l2 level
    rw [strEmptyAppend]
  | cons c l1' ih =>
    rw [List.cons_append, compressSmart_cons, compressSmart_cons, ih, strAppendAssoc]

theorem compressSummary_shift (changes : List FileChange) :
    DiffCompressor.compressSummary changes
      = "⚠️  대량 변경 감지 - 요약 리뷰\n\n"
        ++ (groupByExt changes).foldl (fun acc g => acc ++ DiffCompressor.summaryGroupBlock g) "" := by
  unfold DiffCompressor.compressSummary
  exact foldlAppendShift _ _ _

theorem compressSummary_head (changes : List FileChange) :
    ∃ t, (DiffCompressor.compressSummary changes).data = '⚠' :: t := by
  rw [compressSummary_shift, strDataAppend]
  have hh : ("⚠️  대량 변경 감지 - 요약 리뷰\n\n" : String).data.head? = some '⚠' := by decide
  cases hdata : ("⚠️  대량 변경 감지 - 요약 리뷰\n\n" : String).data with
  | nil => rw [hdata] at hh; cases hh
  | cons a t =>
    rw [hdata] at hh
    have ha : a = '⚠' := by simpa using hh
    rw [ha]
    exact ⟨_, rfl⟩

theorem smartSegment_shape (level : String) (c : FileChange) :
    DiffCompressor.smartSegment level c = ""
      ∨ ∃ t, (DiffCompressor.smartSegment level c).data = '\n' :: t := by
  unfold DiffCompressor.smartSegment
  by_cases h : DiffCompressor.getFilePriority c.path = "low" ∧ level = ReviewLevel.QUICK
  · left
    rw [if_pos h]
  · right
    rw [if_neg h, strDataAppend, strDataAppend]
    have hh : ("\n━━━ " : String).data = '\n' :: ['━', '━', '━', ' '] := by decide
    rw [hh]
    exact ⟨_, rfl⟩

theorem compressSmart_shape :
    ∀ (changes : List FileChange) (level : String),
      DiffCompressor.compressSmart changes level = ""
        ∨ ∃ t, (DiffCompressor.compressSmart changes level).data = '\n' :: t
  | [], _ => Or.inl rfl
  | c :: rest, level => by
    rw [compressSmart_cons]
    rcases smartSegment_shape level c with h | ⟨t, ht⟩
    · rw [h, strEmptyAppend]
      exact compressSmart_shape rest level
    · right
      rw [strDataAppend, ht]
      exact ⟨_, rfl⟩

/-! ## Claim C1 -/

/-- Claim C1: if the total changed lines (insertions + deletions over all
files) exceed 500, then `compress` at any level other than Detailed returns
exactly the summary-mode report (`compressSummary`: files grouped by
extension, aggregate counts per group, only the two largest files listed
per group), while at level Detailed it returns the smart-mode report, which
is never equal to a summary-mode report. -/
theorem compress_volume_gating (changes : List FileChange) (level : String)
    (h : 500 < totalChangedLines changes) :
    (level ≠ ReviewLevel.DETAILED →
      DiffCompressor.compress changes level = DiffCompressor.compressSummary changes) ∧
    DiffCompressor.compress changes ReviewLevel.DETAILED
      = DiffCompressor.compressSmart changes ReviewLevel.DETAILED ∧
    DiffCompressor.compress changes ReviewLevel.DETAILED
      ≠ DiffCompressor.compressSummary changes := by
  have h2 : DiffCompressor.compress changes ReviewLevel.DETAILED
      = DiffCompressor.compressSmart changes ReviewLevel.DETAILED := by
    unfold DiffCompressor.compress
    rw [if_neg (fun hc => hc.2 rfl), if_neg (fun hc => absurd hc.2 (by decide))]
  refine ⟨?_, h2, ?_⟩
  · intro hne
    unfold DiffCompressor.compress
    rw [if_pos ⟨h, hne⟩]
  · rw [h2]
    intro heq
    obtain ⟨t, ht⟩ := compressSummary_head changes
    rcases compressSmart_shape changes ReviewLevel.DETAILED with hs | ⟨u, hu⟩
    · rw [hs] at heq
      have hd := congrArg String.data heq
      rw [ht] at hd
      cases hd
    · have hd := congrArg String.data heq
      rw [hu, ht] at hd
      injection hd with h1 _
      exact absurd h1 (by decide)

/-- The concrete ChangeSet of C1's acceptance test: total changed lines
600. -/
def exChangesC1 : List FileChange :=
  [⟨"a.py", "M", 300, 0, "+x = 1\n-y = 2"⟩, ⟨"b.js", "M", 200, 100, ""⟩]

theorem compress_volume_gating_witness :
    500 < totalChangedLines exChangesC1 ∧
    DiffCompressor.compress exChangesC1 ReviewLevel.NORMAL
      = DiffCompressor.compressSummary exChangesC1 ∧
    DiffCompressor.compress exChangesC1 ReviewLevel.DETAILED
      ≠ DiffCompressor.compressSummary exChangesC1 :=
  ⟨by decide,
   (compress_volume_gating exChangesC1 ReviewLevel.NORMAL (by decide)).1 (by decide),
   (compress_volume_gating exChangesC1 ReviewLevel.NORMAL (by decide)).2.2⟩

/-! ## Claim C4 -/

/-- Claim C4: the priority function tags `auth_service.py` High and
`test_utils.py` Low; in smart-mode compression at level Quick a
Low-priority file contributes nothing to the output (no header, no body),
while a High-priority file contributes its header and its compressed body
at every level. -/
theorem priority_gating_smart (c : FileChange) (pre post : List FileChange) (level : String) :
    DiffCompressor.getFilePriority "auth_service.py" = "high" ∧
    DiffCompressor.getFilePriority "test_utils.py" = "low" ∧
    (DiffCompressor.getFilePriority c.path = "low" →
      DiffCompressor.compressSmart (pre ++ c :: post) ReviewLevel.QUICK
        = DiffCompressor.compressSmart pre ReviewLevel.QUICK
          ++ DiffCompressor.compressSmart post ReviewLevel.QUICK) ∧
    (DiffCompressor.getFilePriority c.path = "high" →
      DiffCompressor.compressSmart (pre ++ c :: post) level
        = DiffCompressor.compressSmart pre level
          ++ (("\n━━━ " ++ (c.path ++ " (" ++ c.change_type ++ ") +"
                ++ toString c.insertions ++ "/-" ++ toString c.deletions ++ "\n")
              ++ (if c.diff = "" then ""
                  else DiffCompressor.compressDiffContent c.diff level c.change_type ++ "\n"))
            ++ DiffCompressor.compressSmart post level)) := by
  refine ⟨by decide, by decide, ?_, ?_⟩
  · intro h
    rw [compressSmart_append, compressSmart_cons]
    have hseg : DiffCompressor.smartSegment ReviewLevel.QUICK c = "" := by
      unfold DiffCompressor.smartSegment
      rw [if_pos ⟨h, rfl⟩]
    rw [hseg, strEmptyAppend]
  · intro h
    rw [compressSmart_append, compressSmart_cons]
    have hseg : DiffCompressor.smartSegment level c
        = ("\n━━━ " ++ (c.path ++ " (" ++ c.change_type ++ ") +"
            ++ toString c.insertions ++ "/-" ++ toString c.deletions ++ "\n")
          ++ (if c.diff = "" then ""
              else DiffCompressor.compressDiffContent c.diff level c.change_type ++ "\n")) := by
      unfold DiffCompressor.smartSegment
      rw [if_neg (fun hc => absurd (h.symm.trans hc.1) (by decide))]
    rw [hseg]

/-- Low-priority file of C4's acceptance test. -/
def exLowFile : FileChange := ⟨"test_utils.py", "M", 1, 0, "+x = 1"⟩

/-- High-priority file of C4's acceptance test. -/
def exHighFile : FileChange := ⟨"auth_service.py", "M", 2, 1, "+y = 2\n-z = 3"⟩

theorem priority_gating_smart_witness :
    (DiffCompressor.getFilePriority exLowFile.path = "low" ∧
      DiffCompressor.compressSmart ([exHighFile] ++ exLowFile :: []) ReviewLevel.QUICK
        = DiffCompressor.compressSmart [exHighFile] ReviewLevel.QUICK
          ++ DiffCompressor.compressSmart [] ReviewLevel.QUICK) ∧
    (DiffCompressor.getFilePriority exHighFile.path = "high" ∧
      DiffCompressor.compressSmart ([] ++ exHighFile :: [exLowFile]) ReviewLevel.QUICK
        = DiffCompressor.compressSmart [] ReviewLevel.QUICK
          ++ (("\n━━━ " ++ (exHighFile.path ++ " (" ++ exHighFile.change_type ++ ") +"
                ++ toString exHighFile.insertions ++ "/-" ++ toString exHighFile.deletions ++ "\n")
              ++ (if exHighFile.diff = "" then ""
                  else DiffCompressor.compressDiffContent exHighFile.diff ReviewLevel.QUICK
                    exHighFile.change_type ++ "\n"))
            ++ DiffCompressor.compressSmart [exLowFile] ReviewLevel.QUICK)) :=
  ⟨⟨by decide,
    (priority_gating_smart exLowFile [exHighFile] [] ReviewLevel.QUICK).2.2.1 (by decide)⟩,
   ⟨by decide,
    (priority_gating_smart exHighFile [] [exLowFile] ReviewLevel.QUICK).2.2.2 (by decide)⟩⟩

/-! ## Claim C10 -/

/-- Claim C10 (implicit): the low-priority keyword list takes precedence
over the high-priority list — a path whose lower-cased form contains both a
low-priority pattern and a high-priority pattern is tagged Low, because the
low patterns are tested first and return immediately; in particular
`test_service.py` and `auth_config.yaml` are Low. -/
theorem low_priority_precedence (path : String)
    (hlow : ∃ p ∈ lowPriorityPatterns, pyContains (pyLower path) p = true)
    (_hhigh : ∃ p ∈ highPriorityPatterns, pyContains (pyLower path) p = true) :
    DiffCompressor.getFilePriority path = "low" ∧
    DiffCompressor.getFilePriority "test_service.py" = "low" ∧
    DiffCompressor.getFilePriority "auth_config.yaml" = "low" := by
  refine ⟨?_, by decide, by decide⟩
  unfold DiffCompressor.getFilePriority
  rw [if_pos (List.any_eq_true.mpr hlow)]

theorem low_priority_precedence_witness :
    (∃ p ∈ lowPriorityPatterns, pyContains (pyLower "test_service.py") p = true) ∧
    (∃ p ∈ highPriorityPatterns, pyContains (pyLower "test_service.py") p = true) ∧
    DiffCompressor.getFilePriority "test_service.py" = "low" :=
  ⟨by decide, by decide,
   (low_priority_precedence "test_service.py" (by decide) (by decide)).1⟩

/-! ## Claim C5 -/

/-- Claim C5 counterexample: the line consisting of an equals sign between
spaces has fewer than 3 characters after trimming, yet the importance
filter accepts it — the filter's length check runs before trimming. -/
theorem line_filter_counterexample :
    (pyStrip "  =  ").data.length < 3 ∧ DiffCompressor.isImportantLine "  =  " = true := by
  decide

/-- Claim C5 (amended): the importance filter rejects every line shorter
than 3 characters before trimming (hence every blank line, which contains
no signal token either), rejects every line whose trimmed lower-cased form
starts with or equals a noise token, and accepts a line only if it contains
at least one signal token; it rejects the comment line of the acceptance
test and accepts the `if` line. -/
theorem line_filter_amended (line : String) :
    (line.data.length < 3 → DiffCompressor.isImportantLine line = false) ∧
    ((∀ c ∈ line.data, pyIsSpace c = true) → DiffCompressor.isImportantLine line = false) ∧
    ((∃ p ∈ skipPatterns,
        pyStartsWith (pyStrip (pyLower line)) p = true ∨ pyStrip (pyLower line) = p) →
      DiffCompressor.isImportantLine line = false) ∧
    (DiffCompressor.isImportantLine line = true →
      ∃ p ∈ importantPatterns, pyContains line p = true) ∧
    DiffCompressor.isImportantLine "    # just a comment" = false ∧
    DiffCompressor.isImportantLine "if user.active:" = true := by
  refine ⟨?_, ?_, ?_, ?_, by decide, by decide⟩
  · intro h
    unfold DiffCompressor.isImportantLine
    rw [if_pos h]
  · intro hws
    unfold DiffCompressor.isImportantLine
    by_cases h3 : line.data.length < 3
    · rw [if_pos h3]
    · rw [if_neg h3]
      by_cases hs : (skipPatterns.any (fun p =>
          pyStartsWith (pyStrip (pyLower line)) p || pyStrip (pyLower line) == p)) = true
      · rw [if_pos hs]
      · rw [if_neg hs]
        cases hany : importantPatterns.any (fun p => pyContains line p) with
        | false => rfl
        | true =>
          exfalso
          obtain ⟨p, hp, hcont⟩ := List.any_eq_true.mp hany
          have hsig : ∀ q ∈ importantPatterns, ∃ c ∈ q.data, pyIsSpace c = false := by decide
          obtain ⟨c, hc, hcns⟩ := hsig p hp
          have hmem : c ∈ line.data := containsList_sub p.data line.data hcont c hc
          simp [hws c hmem] at hcns
  · intro hskip
    unfold DiffCompressor.isImportantLine
    by_cases h3 : line.data.length < 3
    · rw [if_pos h3]
    · rw [if_neg h3]
      have hs : (skipPatterns.any (fun p =>
          pyStartsWith (pyStrip (pyLower line)) p || pyStrip (pyLower line) == p)) = true := by
        apply List.any_eq_true.mpr
        obtain ⟨p, hp, hor⟩ := hskip
        refine ⟨p, hp, ?_⟩
        rcases hor with h | h
        · simp [h]
        · simp [h]
      rw [if_pos hs]
  · intro himp
    unfold DiffCompressor.isImportantLine at himp
    by_cases h3 : line.data.length < 3
    · rw [if_pos h3] at himp
      cases himp
    · rw [if_neg h3] at himp
      by_cases hs : (skipPatterns.any (fun p =>
          pyStartsWith (pyStrip (pyLower line)) p || pyStrip (pyLower line) == p)) = true
      · rw [if_pos hs] at himp
        cases himp
      · rw [if_neg hs] at himp
        exact List.any_eq_true.mp himp

theorem line_filter_amended_witness :
    ("ab" : String).data.length < 3 ∧
    DiffCompressor.isImportantLine "ab" = false ∧
    (∀ c ∈ ("   " : String).data, pyIsSpace c = true) ∧
    DiffCompressor.isImportantLine "   " = false ∧
    (∃ p ∈ skipPatterns,
        pyStartsWith (pyStrip (pyLower "import os")) p = true ∨ pyStrip (pyLower "import os") = p) ∧
    DiffCompressor.isImportantLine "import os" = false ∧
    DiffCompressor.isImportantLine "if user.active:" = true ∧
    (∃ p ∈ importantPatterns, pyContains "if user.active:" p = true) :=
  ⟨by decide,
   (line_filter_amended "ab").1 (by decide),
   by decide,
   (line_filter_amended "   ").2.1 (by decide),
   by decide,
   (line_filter_amended "import os").2.2.1 (by decide),
   (line_filter_amended "if user.active:").2.2.2.2.2,
   (line_filter_amended "if user.active:").2.2.2.1
     (line_filter_amended "if user.active:").2.2.2.2.2⟩

/-! ## Claim C6 -/

/-- Spec-side description of the additions kept for a modified/deleted
file: the added lines that pass the importance filter, trimmed and
truncated to 100 characters, in order. -/
def addedSelected (lines : List String) : List String :=
  (lines.filter (fun l => (pyStartsWith l "+" && !(pyStartsWith l "+++"))
      && DiffCompressor.isImportantLine (pyStrip (strDrop l 1)))).map
    (fun l => "+ " ++ strTake (pyStrip (strDrop l 1)) 100)

/-- Spec-side description of the deletions kept for a modified/deleted
file. -/
def removedSelected (lines : List String) : List String :=
  (lines.filter (fun l => (pyStartsWith l "-" && !(pyStartsWith l "---"))
      && DiffCompressor.isImportantLine (pyStrip (strDrop l 1)))).map
    (fun l => "- " ++ strTake (pyStrip (strDrop l 1)) 100)

theorem plus_not_minus (l : String) (h : pyStartsWith l "+" = true) :
    pyStartsWith l "-" = false := by
  unfold pyStartsWith at h ⊢
  cases hd : l.data with
  | nil => rw [hd] at h; cases h
  | cons a t =>
    have ha : a = '+' := by
      rw [hd] at h
      simp only [show ("+" : String).data = ['+'] from rfl, isPrefixList,
        Bool.and_true, beq_iff_eq] at h
      exact h.symm
    subst ha
    simp [isPrefixList, show ("-" : String).data = ['-'] from rfl]

theorem minus_not_plus (l : String) (h : pyStartsWith l "-" = true) :
    pyStartsWith l "+" = false := by
  cases hp : pyStartsWith l "+" with
  | false => rfl
  | true => rw [plus_not_minus l hp] at h; cases h

theorem foldl_addDelStep :
    ∀ (lines : List String) (a d : List String),
      lines.foldl addDelStep (a, d)
        = (a ++ addedSelected lines, d ++ removedSelected lines)
  | [], a, d => by simp [addedSelected, removedSelected]
  | l :: ls, a, d => by
    rw [List.foldl_cons]
    by_cases hplus : (pyStartsWith l "+" && !(pyStartsWith l "+++")) = true
    · have hminusF : pyStartsWith l "-" = false := by
        apply plus_not_minus l
        have hp := hplus
        rw [Bool.and_eq_true] at hp
        exact hp.1
      by_cases himp : DiffCompressor.isImportantLine (pyStrip (strDrop l 1)) = true
      · have hstep : addDelStep (a, d) l
            = (a ++ ["+ " ++ strTake (pyStrip (strDrop l 1)) 100], d) := by
          unfold addDelStep
          rw [if_pos hplus, if_pos himp]
        rw [hstep, foldl_addDelStep ls _ _]
        simp [addedSelected, removedSelected, List.filter_cons, hplus, himp, hminusF,
          List.append_assoc]
      · have hstep : addDelStep (a, d) l = (a, d) := by
          unfold addDelStep
          rw [if_pos hplus, if_neg (by simp [himp])]
        rw [hstep, foldl_addDelStep ls _ _]
        simp [addedSelected, removedSelected, List.filter_cons, hplus, himp, hminusF]
    · by_cases hminus : (pyStartsWith l "-" && !(pyStartsWith l "---")) = true
      · by_cases himp : DiffCompressor.isImportantLine (pyStrip (strDrop l 1)) = true
        · have hstep : addDelStep (a, d) l
              = (a, d ++ ["- " ++ strTake (pyStrip (strDrop l 1)) 100]) := by
            unfold addDelStep
            rw [if_neg (by simp [hplus]), if_pos hminus, if_pos himp]
          rw [hstep, foldl_addDelStep ls _ _]
          simp [addedSelected, removedSelected, List.filter_cons, hplus, hminus, himp,
            List.append_assoc]
        · have hstep : addDelStep (a, d) l = (a, d) := by
            unfold addDelStep
            rw [if_neg (by simp [hplus]), if_pos hminus, if_neg (by simp [himp])]
          rw [hstep, foldl_addDelStep ls _ _]
          simp [addedSelected, removedSelected, List.filter_cons, hplus, hminus, himp]
      · have hstep : addDelStep (a, d) l = (a, d) := by
          unfold addDelStep
          rw [if_neg (by simp [hplus]), if_neg (by simp [hminus])]
        rw [hstep, foldl_addDelStep ls _ _]
        simp [addedSelected, removedSelected, List.filter_cons, hplus, hminus]

theorem collectAddDel_eq (lines : List String) :
    collectAddDel lines = (addedSelected lines, removedSelected lines) := by
  unfold collectAddDel
  rw [foldl_addDelStep]
  simp

theorem strTake_noNL (s : String) (n : Nat) (h : ∀ c ∈ s.data, c ≠ '\n') :
    ∀ c ∈ (strTake s n).data, c ≠ '\n' := by
  intro c hc
  exact h c (List.take_subset n s.data hc)

theorem strDrop_noNL (s : String) (n : Nat) (h : ∀ c ∈ s.data, c ≠ '\n') :
    ∀ c ∈ (strDrop s n).data, c ≠ '\n' := by
  intro c hc
  exact h c (List.drop_subset n s.data hc)

theorem pyStrip_noNL (s : String) (h : ∀ c ∈ s.data, c ≠ '\n') :
    ∀ c ∈ (pyStrip s).data, c ≠ '\n' := by
  intro c hc
  apply h
  have h1 := List.mem_reverse.mp hc
  have h2 := (List.dropWhile_sublist pyIsSpace).subset h1
  have h3 := List.mem_reverse.mp h2
  exact (List.dropWhile_sublist pyIsSpace).subset h3

theorem appendStr_noNL (a b : String) (ha : ∀ c ∈ a.data, c ≠ '\n')
    (hb : ∀ c ∈ b.data, c ≠ '\n') : ∀ c ∈ (a ++ b).data, c ≠ '\n' := by
  intro c hc
  rw [strDataAppend] at hc
  rcases List.mem_append.mp hc with h | h
  · exact ha c h
  · exact hb c h

theorem addedSelected_noNL (diff : String) :
    ∀ e ∈ addedSelected (pySplitLines diff), ∀ c ∈ e.data, c ≠ '\n' := by
  intro e he
  unfold addedSelected at he
  rw [List.mem_map] at he
  obtain ⟨l, hl, rfl⟩ := he
  have hlm : l ∈ pySplitLines diff := List.mem_of_mem_filter hl
  exact appendStr_noNL "+ " _ (by decide)
    (strTake_noNL _ _ (pyStrip_noNL _ (strDrop_noNL _ _ (mem_pySplitLines_noNL diff l hlm))))

theorem removedSelected_noNL (diff : String) :
    ∀ e ∈ removedSelected (pySplitLines diff), ∀ c ∈ e.data, c ≠ '\n' := by
  intro e he
  unfold removedSelected at he
  rw [List.mem_map] at he
  obtain ⟨l, hl, rfl⟩ := he
  have hlm : l ∈ pySplitLines diff := List.mem_of_mem_filter hl
  exact appendStr_noNL "- " _ (by decide)
    (strTake_noNL _ _ (pyStrip_noNL _ (strDrop_noNL _ _ (mem_pySplitLines_noNL diff l hlm))))

/-- Claim C6: in smart mode, the per-file body of a modified or deleted
file is exactly the importance-filtered removed lines rendered before the
importance-filtered added lines, each group capped at maxLines/2 entries
(maxLines = 20 at Detailed, 10 otherwise), the whole segment truncated to
at most 30 output lines. -/
theorem modified_file_body_structure (diff level changeType : String)
    (h : changeType ≠ "A") :
    DiffCompressor.compressDiffContent diff level changeType
      = pyJoinNL
          (((if removedSelected (pySplitLines diff) = [] then []
             else "제거됨:" :: (removedSelected (pySplitLines diff)).take
                ((if level = ReviewLevel.DETAILED then 20 else 10) / 2))
            ++ (if addedSelected (pySplitLines diff) = [] then []
             else "추가됨:" :: (addedSelected (pySplitLines diff)).take
                ((if level = ReviewLevel.DETAILED then 20 else 10) / 2))).take 30)
      ∧ (pySplitLines (DiffCompressor.compressDiffContent diff level changeType)).length ≤ 30 := by
  have h1 : DiffCompressor.compressDiffContent diff level changeType
      = pyJoinNL
          (((if removedSelected (pySplitLines diff) = [] then []
             else "제거됨:" :: (removedSelected (pySplitLines diff)).take
                ((if level = ReviewLevel.DETAILED then 20 else 10) / 2))
            ++ (if addedSelected (pySplitLines diff) = [] then []
             else "추가됨:" :: (addedSelected (pySplitLines diff)).take
                ((if level = ReviewLevel.DETAILED then 20 else 10) / 2))).take 30) := by
    simp only [DiffCompressor.compressDiffContent]
    rw [if_neg h, collectAddDel_eq]
  refine ⟨h1, ?_⟩
  rw [h1]
  set rblock := (if removedSelected (pySplitLines diff) = [] then []
      else "제거됨:" :: (removedSelected (pySplitLines diff)).take
        ((if level = ReviewLevel.DETAILED then 20 else 10) / 2)) with hrb
  set ablock := (if addedSelected (pySplitLines diff) = [] then []
      else "추가됨:" :: (addedSelected (pySplitLines diff)).take
        ((if level = ReviewLevel.DETAILED then 20 else 10) / 2)) with hab
  have hnoNL : ∀ e ∈ (rblock ++ ablock).take 30, ∀ c ∈ e.data, c ≠ '\n' := by
    intro e he
    have he2 := List.take_subset 30 _ he
    rcases List.mem_append.mp he2 with hr | ha
    · rw [hrb] at hr
      by_cases hc : removedSelected (pySplitLines diff) = []
      · rw [if_pos hc] at hr
        cases hr
      · rw [if_neg hc] at hr
        rcases List.mem_cons.mp hr with hr | hr
        · subst hr
          decide
        · exact removedSelected_noNL diff e (List.take_subset _ _ hr)
    · rw [hab] at ha
      by_cases hc : addedSelected (pySplitLines diff) = []
      · rw [if_pos hc] at ha
        cases ha
      · rw [if_neg hc] at ha
        rcases List.mem_cons.mp ha with ha | ha
        · subst ha
          decide
        · exact addedSelected_noNL diff e (List.take_subset _ _ ha)
  by_cases hL : (rblock ++ ablock).take 30 = []
  · rw [hL]
    decide
  · rw [pySplit_pyJoin _ hL hnoNL]
    exact List.length_take_le 30 _

theorem modified_file_body_structure_witness :
    ("M" : String) ≠ "A" ∧
    DiffCompressor.compressDiffContent "+x = compute()\n-old = 1\n+# nope\n context"
        ReviewLevel.NORMAL "M"
      = pyJoinNL
          (((if removedSelected (pySplitLines "+x = compute()\n-old = 1\n+# nope\n context") = [] then []
             else "제거됨:" :: (removedSelected (pySplitLines "+x = compute()\n-old = 1\n+# nope\n context")).take
                ((if ReviewLevel.NORMAL = ReviewLevel.DETAILED then 20 else 10) / 2))
            ++ (if addedSelected (pySplitLines "+x = compute()\n-old = 1\n+# nope\n context") = [] then []
             else "추가됨:" :: (addedSelected (pySplitLines "+x = compute()\n-old = 1\n+# nope\n context")).take
                ((if ReviewLevel.NORMAL = ReviewLevel.DETAILED then 20 else 10) / 2))).take 30) ∧
    (pySplitLines (DiffCompressor.compressDiffContent "+x = compute()\n-old = 1\n+# nope\n context"
        ReviewLevel.NORMAL "M")).length ≤ 30 :=
  ⟨by decide,
   (modified_file_body_structure "+x = compute()\n-old = 1\n+# nope\n context"
     ReviewLevel.NORMAL "M" (by decide)).1,
   (modified_file_body_structure "+x = compute()\n-old = 1\n+# nope\n context"
     ReviewLevel.NORMAL "M" (by decide)).2⟩

/-! ## Claim C7 -/

/-- Claim C7: for the empty change list and every level, `compress` returns
the empty report, the derived token estimate (length divided by 4, integer
division) of that report is zero, and the review entry point reports a
token estimate of 0. -/
theorem compress_empty_changes (level : String) :
    DiffCompressor.compress [] level = "" ∧
    tokenEstimate (DiffCompressor.compress [] level) = 0 ∧
    reviewTokenEstimate [] level = 0 := by
  have h : DiffCompressor.compress [] level = "" := by
    simp only [DiffCompressor.compress]
    rw [if_neg (fun hc => absurd hc.1 (by decide)),
      if_neg (fun hc => absurd hc.1 (by decide))]
    rfl
  refine ⟨h, ?_, ?_⟩
  · rw [h]
    decide
  · rfl

/-! ## Claim C8 -/

/-- Claim C8: `compress` is a pure, deterministic function of its two
arguments — in this embedding the source's static method performs no I/O
and reads no external state, so it denotes a total function and any two
runs on identical inputs produce identical output text. -/
theorem compress_deterministic (changes1 changes2 : List FileChange)
    (level1 level2 : String) (out1 out2 : String)
    (h1 : out1 = DiffCompressor.compress changes1 level1)
    (h2 : out2 = DiffCompressor.compress changes2 level2)
    (hc : changes1 = changes2) (hl : level1 = level2) :
    out1 = out2 := by
  subst hc
  subst hl
  subst h1
  subst h2
  rfl

theorem compress_deterministic_witness :
    DiffCompressor.compress [⟨"m.py", "M", 1, 0, "+a = 1"⟩] ReviewLevel.NORMAL
      = DiffCompressor.compress [⟨"m.py", "M", 1, 0, "+a = 1"⟩] ReviewLevel.NORMAL :=
  compress_deterministic _ _ _ _ _ _ rfl rfl rfl rfl

/-! ## Claim C2 -/

/-- The 10-line file content of C2's acceptance test (ten lines, no
trailing newline, so `content.split('\n')` has exactly 10 pieces). -/
def exContentC2 : String := "l1\nl2\nl3\nl4\nl5\nl6\nl7\nl8\nl9\nl10"

/-- Claim C2, evaluated at the failing input: the staged and unstaged
added-file fallbacks report insertions 10, deletions 0, and a 10-line
all-`+` diff body — but the untracked-file path of `get_all_changes`
stores the raw content as the diff body, so its lines are NOT prefixed as
additions, contradicting the claim for that path. -/
theorem added_file_fallback_at_input :
    (GitAnalyzer.stagedAddedChange "new.py" exContentC2).insertions = 10 ∧
    (GitAnalyzer.stagedAddedChange "new.py" exContentC2).deletions = 0 ∧
    (pySplitLines (GitAnalyzer.stagedAddedChange "new.py" exContentC2).diff).length = 10 ∧
    (pySplitLines (GitAnalyzer.stagedAddedChange "new.py" exContentC2).diff).all
      (fun l => pyStartsWith l "+") = true ∧
    GitAnalyzer.unstagedAddedChange "new.py" exContentC2
      = some (GitAnalyzer.stagedAddedChange "new.py" exContentC2) ∧
    (GitAnalyzer.untrackedAddedChange "new.py" exContentC2).insertions = 10 ∧
    (GitAnalyzer.untrackedAddedChange "new.py" exContentC2).deletions = 0 ∧
    (pySplitLines (GitAnalyzer.untrackedAddedChange "new.py" exContentC2).diff).length = 10 ∧
    (pySplitLines (GitAnalyzer.untrackedAddedChange "new.py" exContentC2).diff).all
      (fun l => pyStartsWith l "+") = false := by
  decide

/-! ## Claim C3 -/

/-- The concrete ChangeSet of C3's failing input: one modified staged file
with 5 insertions and 2 deletions. -/
def exChangesC3 : GitChanges :=
  GitAnalyzer.getAllChanges [⟨"drop.py", "M", 5, 2, "+a = 1"⟩] [] [] false

/-- Claim C3: at construction `get_all_changes` sets both totals to the
sums over the two partitions; but the explicit-file-list filter of `main`
recomputes only `total_files` — filtering away the only file leaves
`total_insertions` at its stale value 5 while the partitions sum to 0. -/
theorem changeset_totals_stale_after_filter :
    (∀ (staged unstaged : List FileChange) (untracked : List (String × String)) (inc : Bool),
      (GitAnalyzer.getAllChanges staged unstaged untracked inc).total_insertions
        = (((GitAnalyzer.getAllChanges staged unstaged untracked inc).staged_files
            ++ (GitAnalyzer.getAllChanges staged unstaged untracked inc).unstaged_files).map
              (fun f => f.insertions)).sum ∧
      (GitAnalyzer.getAllChanges staged unstaged untracked inc).total_files
        = (GitAnalyzer.getAllChanges staged unstaged untracked inc).staged_files.length
          + (GitAnalyzer.getAllChanges staged unstaged untracked inc).unstaged_files.length) ∧
    (filterChangesByFiles exChangesC3 ["keep.py"]).total_files
      = (filterChangesByFiles exChangesC3 ["keep.py"]).staged_files.length
        + (filterChangesByFiles exChangesC3 ["keep.py"]).unstaged_files.length ∧
    (filterChangesByFiles exChangesC3 ["keep.py"]).total_insertions = 5 ∧
    (((filterChangesByFiles exChangesC3 ["keep.py"]).staged_files
        ++ (filterChangesByFiles exChangesC3 ["keep.py"]).unstaged_files).map
          (fun f => f.insertions)).sum = 0 := by
  refine ⟨?_, by decide, by decide, by decide⟩
  intro staged unstaged untracked inc
  constructor
  · simp [GitAnalyzer.getAllChanges]
  · simp [GitAnalyzer.getAllChanges]

/-! ## Claim C9 -/

/-- Claim C9: opening the Change Reader on a directory that is not a
recognized repository fails with the fatal repository error, and
`readChanges` on such a directory propagates that error and never produces
a ChangeSet. -/
theorem invalid_repository_fails (repoPath : String) (includeUntracked : Bool) :
    GitAnalyzer.initAnalyzer none repoPath
      = Except.error ("\x27" ++ repoPath ++ "\x27는 유효한 Git 저장소가 아닙니다.") ∧
    GitAnalyzer.readChangesE none repoPath includeUntracked
      = Except.error ("\x27" ++ repoPath ++ "\x27는 유효한 Git 저장소가 아닙니다.") ∧
    (GitAnalyzer.readChangesE none repoPath includeUntracked).toOption = none :=
  ⟨rfl, rfl, rfl⟩
